import Mathlib

/-!
Shallow embedding of the ObjectNode S3-gateway routing layer
(`objectnode/router.go`): the route-registration table built by
`registerApiRouters`, the gorilla/mux matching semantics the table relies
on (first registered route whose method, path, query and header matchers
all pass wins; a route whose registration produced a template error never
matches), the host-based domain resolver built from `o.domains`, and the
`policyCheck` authorization gate wrapped around most handlers.
-/

namespace ObjectNode

/-! ## Action constants

The `Action` values referenced by the table (`GetObjectAction`,
`ListBucketAction`, ...) are declared elsewhere in the repository, outside
the visible source; they are opaque distinct permission tokens, modelled
here as distinct strings named exactly as in the source. -/

def GetObjectAction : String := "GetObjectAction"

def ListBucketAction : String := "ListBucketAction"

def GetBucketPolicyAction : String := "GetBucketPolicyAction"

def GetObjectAclAction : String := "GetObjectAclAction"

def ListMultipartUploadPartsAction : String := "ListMultipartUploadPartsAction"

def GetBucketLocationAction : String := "GetBucketLocationAction"

def GetBucketAclAction : String := "GetBucketAclAction"

def PutObjectAction : String := "PutObjectAction"

def DeleteObjectAction : String := "DeleteObjectAction"

def PutBucketPolicyAction : String := "PutBucketPolicyAction"

def PutObjectAclAction : String := "PutObjectAclAction"

def PutBucketAclAction : String := "PutBucketAclAction"

def AbortMultipartUploadAction : String := "AbortMultipartUploadAction"

def DeleteBucketPolicyAction : String := "DeleteBucketPolicyAction"

/-- The copy-source header name constant (`HeaderNameCopySource`) is declared
elsewhere in the repository; its exact value is irrelevant to the routing
claims, only its identity as a fixed header key. -/
def HeaderNameCopySource : String := "X-Amz-Copy-Source"

/-! ## Query and header predicates

Each `Queries(key, template)` pair of the source becomes a `QueryPred`.
gorilla/mux matches the template against `key=firstValue`: an empty
template gets the default pattern `.*`, so `Queries(key, "")` matches any
value when the key is set; `{v:.+}` requires a non-empty value, `{v:.*}`
accepts any value, `{v:[0-9]+}` requires a non-empty all-digit value, and
a non-empty literal template requires exactly that value.  A brace
template also captures the value under the variable name `v`. -/

inductive QueryPat where
  | nonemptyVal
  | anyVal
  | digitsVal
  | exactVal (s : String)
deriving DecidableEq

structure QueryPred where
  key : String
  pat : QueryPat
  varName : Option String
deriving DecidableEq

/-- First value bound to a key in an association list (gorilla/mux query
matching uses the first value of the key in the parsed query). -/
def lookupFirst (k : String) (l : List (String × String)) : Option String :=
  (l.find? (fun p => decide (p.1 = k))).map (fun p => p.2)

def QueryPat.sat : QueryPat → String → Bool
  | .nonemptyVal, v => decide (v ≠ "")
  | .anyVal, _ => true
  | .digitsVal, v => decide (v ≠ "") && v.data.all Char.isDigit
  | .exactVal s, v => decide (v = s)

def QueryPred.sat (q : QueryPred) (query : List (String × String)) : Bool :=
  match lookupFirst q.key query with
  | some v => q.pat.sat v
  | none => false

/-- Substring test on character lists (regexp `MatchString` with an
unanchored pattern reduces to a containment test here). -/
def containsSeq (sub : List Char) : List Char → Bool
  | [] => sub.isEmpty
  | c :: t => sub.isPrefixOf (c :: t) || containsSeq sub t

/-- The one header predicate of the table:
`HeadersRegexp(HeaderNameCopySource, ".*?(\/|%2F).*?")` — the copy-source
header must be present and its value must contain a raw `/` or an encoded
`%2F`. -/
def copyHeaderSat (headers : List (String × String)) : Bool :=
  match lookupFirst HeaderNameCopySource headers with
  | some v => containsSeq ['/'] v.data || containsSeq ['%', '2', 'F'] v.data
  | none => false

/-! ## Route rules -/

/-- One registered route of `registerApiRouters`, relative to a bucket
subrouter.  `needsObject` records a `Path("/{object:.+}")` matcher (the
object key is the non-empty remainder of the path), `pathVar` its capture
variable name.  `copyHeader` records the copy-source `HeadersRegexp`
matcher.  `gated` records whether the handler is wrapped in
`o.policyCheck(...)`.  `broken` records a registration error stored in the
route (`r.err != nil` in gorilla/mux: an unbalanced-brace path template or
an odd-length `Queries` call); such a route never matches any request. -/
structure RouteRule where
  handler : String
  method : String
  needsObject : Bool
  pathVar : String
  queries : List QueryPred
  copyHeader : Bool
  gated : Bool
  actions : List String
  broken : Bool
deriving DecidableEq

/-- Head object: `HEAD /{object:.+}`, gated on `GetObjectAction`. -/
def headObjectRule : RouteRule :=
  ⟨"headObjectHandler", "HEAD", true, "object", [], false, true,
    [GetObjectAction], false⟩

/-- Head bucket: `HEAD` with no path matcher, gated on `ListBucketAction`. -/
def headBucketRule : RouteRule :=
  ⟨"headBucketHandler", "HEAD", false, "", [], false, true,
    [ListBucketAction], false⟩

/-- Get object with pre-signed auth signature v2:
`GET /{object:.+}?AWSAccessKeyId=&Expires=&Signature=`, gated on
`ListBucketAction`. -/
def getObjectPresignedV2Rule : RouteRule :=
  ⟨"getObjectHandler", "GET", true, "object",
    [⟨"AWSAccessKeyId", .nonemptyVal, some "accessKey"⟩,
     ⟨"Expires", .digitsVal, some "expires"⟩,
     ⟨"Signature", .nonemptyVal, some "signature"⟩],
    false, true, [ListBucketAction], false⟩

/-- Get object with pre-signed auth signature v4:
`GET /{object:.+}` with the six `X-Amz-*` query parameters, gated on
`ListBucketAction`. -/
def getObjectPresignedV4Rule : RouteRule :=
  ⟨"getObjectHandler", "GET", true, "object",
    [⟨"X-Amz-Credential", .nonemptyVal, some "creadential"⟩,
     ⟨"X-Amz-Algorithm", .nonemptyVal, some "algorithm"⟩,
     ⟨"X-Amz-Signature", .nonemptyVal, some "signature"⟩,
     ⟨"X-Amz-Date", .nonemptyVal, some "date"⟩,
     ⟨"X-Amz-SignedHeaders", .nonemptyVal, some "signedHeaders"⟩,
     ⟨"X-Amz-Expires", .digitsVal, some "expires"⟩],
    false, true, [ListBucketAction], false⟩

/-- Get object tagging: `GET /{object:.+}?tagging` (any value), gated on
`GetBucketPolicyAction`. -/
def getObjectTaggingRule : RouteRule :=
  ⟨"getObjectTagging", "GET", true, "object",
    [⟨"tagging", .anyVal, none⟩], false, true,
    [GetBucketPolicyAction], false⟩

/-- Get object XAttr: `GET /{object:.+}?xattr=&key=...` — registered
directly with `o.getObjectXAttr`, without a `policyCheck` wrapper. -/
def getObjectXAttrRule : RouteRule :=
  ⟨"getObjectXAttr", "GET", true, "object",
    [⟨"xattr", .anyVal, none⟩, ⟨"key", .nonemptyVal, some "key"⟩],
    false, false, [], false⟩

/-- List object XAttrs: `GET /{object:.+}?xattr=` — registered directly
with `o.listObjectXAttrs`, without a `policyCheck` wrapper. -/
def listObjectXAttrsRule : RouteRule :=
  ⟨"listObjectXAttrs", "GET", true, "object",
    [⟨"xattr", .anyVal, none⟩], false, false, [], false⟩

/-- Get object acl: `GET /{objject:.+}?acl=` — note the source captures the
object path under the misspelled variable `objject`. -/
def getObjectACLRule : RouteRule :=
  ⟨"getObjectACLHandler", "GET", true, "objject",
    [⟨"acl", .anyVal, none⟩], false, true, [GetObjectAclAction], false⟩

/-- Get object (plain): `GET /{object:.+}` with no query predicates, gated
on `GetObjectAction`. -/
def getObjectRule : RouteRule :=
  ⟨"getObjectHandler", "GET", true, "object", [], false, true,
    [GetObjectAction], false⟩

/-- List objects version 2: `GET ?list-type=2` at bucket level. -/
def getBucketV2Rule : RouteRule :=
  ⟨"getBucketV2Handler", "GET", false, "",
    [⟨"list-type", .exactVal "2", none⟩], false, true,
    [ListBucketAction], false⟩

/-- List multipart uploads: `GET ?uploads=` at bucket level. -/
def listMultipartUploadsRule : RouteRule :=
  ⟨"listMultipartUploadsHandler", "GET", false, "",
    [⟨"uploads", .anyVal, none⟩], false, true,
    [ListMultipartUploadPartsAction], false⟩

/-- List parts: `GET ?uploadId={uploadId:.*}` at bucket level. -/
def listPartsRule : RouteRule :=
  ⟨"listPartsHandler", "GET", false, "",
    [⟨"uploadId", .anyVal, some "uploadId"⟩], false, true,
    [ListMultipartUploadPartsAction], false⟩

/-- Get bucket location: `GET ?location=`. -/
def getBucketLocationRule : RouteRule :=
  ⟨"getBucketLocation", "GET", false, "",
    [⟨"location", .anyVal, none⟩], false, true,
    [GetBucketLocationAction], false⟩

/-- Get bucket policy: `GET ?policy=`. -/
def getBucketPolicyRule : RouteRule :=
  ⟨"getBucketPolicyHandler", "GET", false, "",
    [⟨"policy", .anyVal, none⟩], false, true,
    [GetBucketPolicyAction], false⟩

/-- Get bucket acl: `GET ?acl=`. -/
def getBucketACLRule : RouteRule :=
  ⟨"getBucketACLHandler", "GET", false, "",
    [⟨"acl", .anyVal, none⟩], false, true, [GetBucketAclAction], false⟩

/-- List objects version 1: `GET` at bucket level with no predicates. -/
def getBucketV1Rule : RouteRule :=
  ⟨"getBucketV1Handler", "GET", false, "", [], false, true,
    [ListBucketAction], false⟩

/-- Create multipart upload: `POST /{object:.+}?uploads=`. -/
def createMultipleUploadRule : RouteRule :=
  ⟨"createMultipleUploadHandler", "POST", true, "object",
    [⟨"uploads", .anyVal, none⟩], false, true, [PutObjectAction], false⟩

/-- Complete multipart: `POST /{object:.+}?uploadId={uploadId:.*}`. -/
def completeMultipartUploadRule : RouteRule :=
  ⟨"completeMultipartUploadHandler", "POST", true, "object",
    [⟨"uploadId", .anyVal, some "uploadId"⟩], false, true,
    [PutObjectAction], false⟩

/-- Delete objects (batch): `POST ?delete=` with no path matcher. -/
def deleteObjectsRule : RouteRule :=
  ⟨"deleteObjectsHandler", "POST", false, "",
    [⟨"delete", .anyVal, none⟩], false, true, [DeleteObjectAction], false⟩

/-- Upload part:
`PUT /{object:.+}?partNumber={partNumber:[0-9]+}&uploadId={uploadId:.*}`. -/
def uploadPartRule : RouteRule :=
  ⟨"uploadPartHandler", "PUT", true, "object",
    [⟨"partNumber", .digitsVal, some "partNumber"⟩,
     ⟨"uploadId", .anyVal, some "uploadId"⟩],
    false, true, [PutObjectAction], false⟩

/-- Copy object: `PUT /{object:.+}` with the copy-source header predicate. -/
def copyObjectRule : RouteRule :=
  ⟨"copyObjectHandler", "PUT", true, "object", [], true, true,
    [PutObjectAction], false⟩

/-- Put object tagging: `PUT /{object:.+}?tagging=`, gated on
`PutBucketPolicyAction`. -/
def putObjectTaggingRule : RouteRule :=
  ⟨"putObjectTagging", "PUT", true, "object",
    [⟨"tagging", .anyVal, none⟩], false, true,
    [PutBucketPolicyAction], false⟩

/-- Put object xattrs: `PUT /{object:.+}?xattr=` — registered directly
with `o.putObjectXAttr`, without a `policyCheck` wrapper. -/
def putObjectXAttrRule : RouteRule :=
  ⟨"putObjectXAttr", "PUT", true, "object",
    [⟨"xattr", .anyVal, none⟩], false, false, [], false⟩

/-- Put object acl: `PUT /{object:.+}?acl=`. -/
def putObjectACLRule : RouteRule :=
  ⟨"putObjectACLHandler", "PUT", true, "object",
    [⟨"acl", .anyVal, none⟩], false, true, [PutObjectAclAction], false⟩

/-- Put object (plain): `PUT /{object:.+}` with no predicates. -/
def putObjectRule : RouteRule :=
  ⟨"putObjectHandler", "PUT", true, "object", [], false, true,
    [PutObjectAction], false⟩

/-- Put bucket acl: `PUT ?acl=` at bucket level. -/
def putBucketACLRule : RouteRule :=
  ⟨"putBucketACLHandler", "PUT", false, "",
    [⟨"acl", .anyVal, none⟩], false, true, [PutBucketAclAction], false⟩

/-- Put bucket policy: `PUT ?policy=` at bucket level. -/
def putBucketPolicyRule : RouteRule :=
  ⟨"putBucketPolicyHandler", "PUT", false, "",
    [⟨"policy", .anyVal, none⟩], false, true,
    [PutBucketPolicyAction], false⟩

/-- Abort multipart: `DELETE /{object:.+}?uploadId={uploadId:.*}`. -/
def abortMultipartUploadRule : RouteRule :=
  ⟨"abortMultipartUploadHandler", "DELETE", true, "object",
    [⟨"uploadId", .anyVal, some "uploadId"⟩], false, true,
    [AbortMultipartUploadAction], false⟩

/-- Delete object tagging: registered with the malformed path template
`/{object:.+` (unbalanced braces).  gorilla/mux stores the template error
in the route and a route with a stored error never matches, so this rule
is dead: `broken := true`. -/
def deleteObjectTaggingRule : RouteRule :=
  ⟨"deleteObjectTagging", "DELETE", true, "object",
    [⟨"tagging", .anyVal, none⟩], false, true,
    [PutBucketPolicyAction], true⟩

/-- Delete object xattrs: registered with an odd-length
`Queries("xattr", "key", "{key:.+}}")` call; gorilla/mux stores the
arity error in the route, so this rule is dead too (`broken := true`),
and it is also registered without a `policyCheck` wrapper. -/
def deleteObjectXAttrRule : RouteRule :=
  ⟨"deleteObjectXAttr", "DELETE", true, "object",
    [], false, false, [], true⟩

/-- Delete object (plain): `DELETE /{object:.+}` with no predicates. -/
def deleteObjectRule : RouteRule :=
  ⟨"deleteObjectHandler", "DELETE", true, "object", [], false, true,
    [DeleteObjectAction], false⟩

/-- Delete bucket policy: `DELETE ?policy=` at bucket level. -/
def deleteBucketPolicyRule : RouteRule :=
  ⟨"deleteBucketPolicyHandler", "DELETE", false, "",
    [⟨"policy", .anyVal, none⟩], false, true,
    [DeleteBucketPolicyAction], false⟩

/-- The route table of one bucket subrouter, in registration order:
`registerBucketHttpHeadRouters`, then `...GetRouters`, `...PostRouters`,
`...PutRouters`, `...DeleteRouters`, each registering its routes top to
bottom.  gorilla/mux tries routes in registration order and the first
full match wins. -/
def routeTable : List RouteRule :=
  [headObjectRule, headBucketRule,
   getObjectPresignedV2Rule, getObjectPresignedV4Rule, getObjectTaggingRule,
   getObjectXAttrRule, listObjectXAttrsRule, getObjectACLRule, getObjectRule,
   getBucketV2Rule, listMultipartUploadsRule, listPartsRule,
   getBucketLocationRule, getBucketPolicyRule, getBucketACLRule,
   getBucketV1Rule,
   createMultipleUploadRule, completeMultipartUploadRule, deleteObjectsRule,
   uploadPartRule, copyObjectRule, putObjectTaggingRule, putObjectXAttrRule,
   putObjectACLRule, putObjectRule, putBucketACLRule, putBucketPolicyRule,
   abortMultipartUploadRule, deleteObjectTaggingRule, deleteObjectXAttrRule,
   deleteObjectRule, deleteBucketPolicyRule]

/-! ## The matcher -/

/-- A request as seen by a bucket subrouter: its method, the remaining
path after the bucket prefix reduced to the captured object key (`""`
when the path carries no non-empty object remainder), the parsed query
pairs and the header pairs. -/
structure Request where
  method : String
  objectKey : String
  query : List (String × String)
  headers : List (String × String)

/-- All query predicates of a rule are satisfied by a query mapping. -/
def qsat (r : RouteRule) (query : List (String × String)) : Bool :=
  r.queries.all (fun q => q.sat query)

/-- All matchers of a rule other than the method matcher: the route must
be free of registration errors, its object-path matcher (if any) needs a
non-empty object key, all query predicates must be satisfied, and the
copy-source header predicate (if any) must be satisfied. -/
def RouteRule.nonMethodOk (r : RouteRule) (req : Request) : Bool :=
  !r.broken
    && (!r.needsObject || decide (req.objectKey ≠ ""))
    && qsat r req.query
    && (!r.copyHeader || copyHeaderSat req.headers)

/-- Full match: the method matcher and every other matcher pass. -/
def RouteRule.matchesReq (r : RouteRule) (req : Request) : Bool :=
  decide (r.method = req.method) && r.nonMethodOk req

/-- The first rule of the table, in registration order, all of whose
matchers pass (gorilla/mux `Router.Match`). -/
def findMatch (req : Request) : Option RouteRule :=
  routeTable.find? (fun r => r.matchesReq req)

/-- Routing outcome: a selected rule; or, when no rule fully matches but
some route failed only its method matcher, a method-not-allowed response
(gorilla/mux `ErrMethodMismatch`); otherwise the not-found fallback
(`unsupportedOperationHandler` via `router.NotFoundHandler`). -/
inductive RouteOutcome where
  | selected (r : RouteRule)
  | methodNotAllowed
  | routeNotFound
deriving DecidableEq

def routeRequest (req : Request) : RouteOutcome :=
  match findMatch req with
  | some r => .selected r
  | none =>
    if routeTable.any (fun r =>
        decide (r.method ≠ req.method) && r.nonMethodOk req)
    then .methodNotAllowed
    else .routeNotFound

/-! ## Match variables

A matched mux route exposes the path and query variables it captured.
The object-path matcher `/{name:.+}` binds the whole remaining object key
to `name`; a query template with a brace group binds the matched value to
its variable. -/

def RouteRule.capturedVars (r : RouteRule) (req : Request) :
    List (String × String) :=
  (if r.needsObject then [(r.pathVar, req.objectKey)] else [])
    ++ r.queries.filterMap (fun q =>
        q.varName.map (fun n => (n, (lookupFirst q.key req.query).getD "")))

/-- The variables of the match result for a request: those captured by the
selected rule, none when no rule matches. -/
def matchVars (req : Request) : List (String × String) :=
  match findMatch req with
  | some r => r.capturedVars req
  | none => []

/-! ## The authorization gate

`policyCheck` itself is declared outside the visible source (only its
call sites appear in `router.go`). -/

/-- Result of the external policy evaluator for one action. -/
inductive EvalResult where
  | authorized
  | denied
  | evalError
deriving DecidableEq

/-- Final outcome of serving a request through the router. -/
inductive ServeOutcome where
  | handled (handler : String)
  | accessDenied
  | methodNotAllowed
  | unsupportedOperation
deriving DecidableEq

/-- Modelled from the spec: the body of `o.policyCheck` is not under the
visible source (router.go only shows its call sites).  Per the spec's
Authorization Gate, it wraps a handler with the rule's required actions:
the handler runs only when the evaluator grants every required action;
a denial or an evaluator-internal error terminates with AccessDenied
(fail closed). -/
def policyCheck (evalr : String → EvalResult) (actions : List String)
    (handler : String) : ServeOutcome :=
  if actions.all (fun a => decide (evalr a = .authorized))
  then .handled handler
  else .accessDenied

/-- Serving a request: route it, then run the matched rule's handler
through `policyCheck` when the registration wrapped it (`gated`), or
directly when it did not. -/
def serveRequest (evalr : String → EvalResult) (req : Request) :
    ServeOutcome :=
  match routeRequest req with
  | .selected r =>
    if r.gated then policyCheck evalr r.actions r.handler
    else .handled r.handler
  | .methodNotAllowed => .methodNotAllowed
  | .routeNotFound => .unsupportedOperation

/-! ## The domain resolver

`registerApiRouters` builds, for each configured domain `d` (in order),
a subrouter for host template `{bucket:.+}.d` and one for
`{bucket:.+}.d:{port:[0-9]+}`, followed by a path-style subrouter with
`PathPrefix("/{bucket}")`.  mux quotes the literal template text, so the
host must be exactly `bucket ++ "." ++ d`, or `bucket ++ "." ++ d ++ ":"
++ port` with a non-empty all-digit port; `{bucket:.+}` is greedy, so the
captured bucket is the longest prefix admitting such a decomposition.
Hosts are modelled as their character lists. -/

def isDigitSeq (p : List Char) : Bool :=
  !p.isEmpty && p.all Char.isDigit

/-- Capture of `{bucket:.+}.d`: the host must end with `'.' :: d` and have
a non-empty remainder before it, which is the bucket. -/
def suffixCapture (d s : List Char) : Option (List Char) :=
  if ('.' :: d).isSuffixOf s && decide (d.length + 1 < s.length)
  then some (s.take (s.length - (d.length + 1)))
  else none

/-- Does the list start with a colon followed by a non-empty all-digit
tail? -/
def colonDigits : List Char → Bool
  | c :: p => decide (c = ':') && isDigitSeq p
  | [] => false

/-- Does `rest` have the shape `'.' :: d ++ ':' :: p` with a non-empty
all-digit `p`? -/
def portRest (d rest : List Char) : Bool :=
  match rest with
  | c :: r2 =>
    decide (c = '.') && d.isPrefixOf r2 && colonDigits (r2.drop d.length)
  | [] => false

/-- Capture of `{bucket:.+}.d:{port:[0-9]+}`: the longest non-empty prefix
`b` of the host such that the remainder is `'.' :: d ++ ':' :: p` with a
numeric non-empty `p` (the regexp `.+` is greedy). -/
def portCapture (d s : List Char) : Option (List Char) :=
  ((List.range s.length).reverse.find? fun k =>
      decide (0 < k) && portRest d (s.drop k)).map (fun k => s.take k)

/-- Test of one configured domain against the host, in the order the two
subrouters are registered: first the port-less template, then the
port-suffixed one. -/
def hostMatch (d : String) (host : String) : Option (List Char) :=
  match suffixCapture d.data host.data with
  | some b => some b
  | none => portCapture d.data host.data

inductive AddressingMode where
  | virtualHosted
  | pathStyle
deriving DecidableEq

structure BucketAddress where
  bucketName : List Char
  mode : AddressingMode
deriving DecidableEq

/-- The path-style bucket name: `PathPrefix("/{bucket}")` captures the
first path segment (default variable pattern `[^/]+`) after the leading
slash. -/
def firstSegment (path : List Char) : List Char :=
  match path with
  | '/' :: rest => rest.takeWhile (fun c => decide (c ≠ '/'))
  | _ => []

/-- The domain resolver: each configured domain is tested in configured
order; the first match yields virtual-hosted addressing with the captured
prefix as bucket name, and when no domain matches the request falls back
to path-style addressing on the first path segment. -/
def resolveAddress (domains : List String) (host path : String) :
    BucketAddress :=
  match domains with
  | [] => ⟨firstSegment path.data, .pathStyle⟩
  | d :: rest =>
    match hostMatch d host with
    | some b => ⟨b, .virtualHosted⟩
    | none => resolveAddress rest host path

/-! ## Helper lemmas -/

theorem find?_skip {p : RouteRule → Bool} {r : RouteRule} (rs : List RouteRule)
    (h : p r = false) : List.find? p (r :: rs) = List.find? p rs :=
  List.find?_cons_of_neg rs (by simp [h])

theorem find?_hit {p : RouteRule → Bool} {r : RouteRule} (rs : List RouteRule)
    (h : p r = true) : List.find? p (r :: rs) = some r :=
  List.find?_cons_of_pos rs h

theorem prefixOf_decomp : ∀ (a b : List Char), a.isPrefixOf b = true →
    ∃ t, b = a ++ t := by
  intro a
  induction a with
  | nil => exact fun b _ => ⟨b, rfl⟩
  | cons x xs ih =>
    intro b h
    cases b with
    | nil => simp at h
    | cons y ys =>
      rw [List.isPrefixOf_cons₂, Bool.and_eq_true, beq_iff_eq] at h
      obtain ⟨rfl, h2⟩ := h
      obtain ⟨t, rfl⟩ := ih ys h2
      exact ⟨t, rfl⟩

theorem prefixOf_complete : ∀ (a t : List Char), a.isPrefixOf (a ++ t) = true := by
  intro a t
  induction a with
  | nil => simp
  | cons x xs ih => rw [List.cons_append, List.isPrefixOf_cons₂, ih]; simp

theorem suffixOf_decomp (a b : List Char) (h : a.isSuffixOf b = true) :
    ∃ t, b = t ++ a := by
  rw [List.isSuffixOf] at h
  obtain ⟨t, ht⟩ := prefixOf_decomp _ _ h
  refine ⟨t.reverse, ?_⟩
  have h2 := congrArg List.reverse ht
  simpa using h2

theorem suffixOf_complete (a t : List Char) : a.isSuffixOf (t ++ a) = true := by
  rw [List.isSuffixOf, List.reverse_append]
  exact prefixOf_complete _ _

theorem suffixCapture_some (d s b : List Char)
    (h : suffixCapture d s = some b) : b ≠ [] ∧ s = b ++ '.' :: d := by
  unfold suffixCapture at h
  split at h
  case isTrue hc =>
    rw [Bool.and_eq_true, decide_eq_true_eq] at hc
    obtain ⟨h1, h2⟩ := hc
    obtain ⟨t, rfl⟩ := suffixOf_decomp _ _ h1
    have hlen : (t ++ '.' :: d).length - (d.length + 1) = t.length := by
      simp [List.length_append, List.length_cons]
    rw [hlen, List.take_left' rfl] at h
    injection h with h
    subst h
    refine ⟨?_, rfl⟩
    intro hnil
    subst hnil
    simp [List.length_cons] at h2
  case isFalse hc => cases h

theorem suffixCapture_complete (d b : List Char) (hb : b ≠ []) :
    suffixCapture d (b ++ '.' :: d) = some b := by
  unfold suffixCapture
  have hcond : (('.' :: d).isSuffixOf (b ++ '.' :: d) &&
      decide (d.length + 1 < (b ++ '.' :: d).length)) = true := by
    rw [Bool.and_eq_true, decide_eq_true_eq]
    refine ⟨suffixOf_complete _ _, ?_⟩
    have hb2 : 0 < b.length := List.length_pos.mpr hb
    simp only [List.length_append, List.length_cons]
    omega
  rw [if_pos hcond]
  have hlen : (b ++ '.' :: d).length - (d.length + 1) = b.length := by
    simp [List.length_append, List.length_cons]
  rw [hlen, List.take_left' rfl]

theorem portRest_decomp (d rest : List Char) (h : portRest d rest = true) :
    ∃ p, isDigitSeq p = true ∧ rest = '.' :: (d ++ ':' :: p) := by
  cases rest with
  | nil => simp [portRest] at h
  | cons c r2 =>
    simp only [portRest] at h
    rw [Bool.and_eq_true, Bool.and_eq_true, decide_eq_true_eq] at h
    obtain ⟨⟨hc, hpre⟩, hcd⟩ := h
    subst hc
    obtain ⟨t, rfl⟩ := prefixOf_decomp _ _ hpre
    rw [List.drop_left' rfl] at hcd
    cases t with
    | nil => simp [colonDigits] at hcd
    | cons c2 p =>
      simp only [colonDigits] at hcd
      rw [Bool.and_eq_true, decide_eq_true_eq] at hcd
      obtain ⟨hc2, hp⟩ := hcd
      subst hc2
      exact ⟨p, hp, rfl⟩

theorem portRest_complete (d p : List Char) (hp : isDigitSeq p = true) :
    portRest d ('.' :: (d ++ ':' :: p)) = true := by
  simp only [portRest]
  rw [List.drop_left' rfl]
  simp only [colonDigits]
  rw [prefixOf_complete]
  simp [hp]

theorem portCapture_some (d s b : List Char) (h : portCapture d s = some b) :
    b ≠ [] ∧ ∃ p, isDigitSeq p = true ∧ s = b ++ '.' :: (d ++ ':' :: p) := by
  unfold portCapture at h
  cases hf : (List.range s.length).reverse.find?
      (fun k => decide (0 < k) && portRest d (s.drop k)) with
  | none => rw [hf] at h; cases h
  | some k =>
    rw [hf] at h
    simp only [Option.map_some'] at h
    injection h with h
    have hk := List.find?_some hf
    rw [Bool.and_eq_true, decide_eq_true_eq] at hk
    obtain ⟨hk0, hpr⟩ := hk
    have hkmem : k ∈ (List.range s.length).reverse :=
      List.mem_of_find?_eq_some hf
    rw [List.mem_reverse, List.mem_range] at hkmem
    obtain ⟨p, hp, hdrop⟩ := portRest_decomp _ _ hpr
    subst h
    constructor
    · intro hnil
      have hlen := congrArg List.length hnil
      rw [List.length_take] at hlen
      simp only [List.length_nil] at hlen
      omega
    · refine ⟨p, hp, ?_⟩
      conv_lhs => rw [← List.take_append_drop k s]
      rw [hdrop]

theorem portCapture_complete (d b p : List Char) (hb : b ≠ [])
    (hp : isDigitSeq p = true) :
    (portCapture d (b ++ '.' :: (d ++ ':' :: p))).isSome = true := by
  unfold portCapture
  rw [Option.isSome_map']
  rw [List.find?_isSome]
  refine ⟨b.length, ?_, ?_⟩
  · rw [List.mem_reverse, List.mem_range]
    have hb2 : 0 < b.length := List.length_pos.mpr hb
    simp only [List.length_append, List.length_cons]
    omega
  · rw [Bool.and_eq_true, decide_eq_true_eq]
    refine ⟨List.length_pos.mpr hb, ?_⟩
    rw [List.drop_left' rfl]
    exact portRest_complete d p hp

theorem hostMatch_sound (d host : String) (b : List Char)
    (h : hostMatch d host = some b) :
    b ≠ [] ∧ (host.data = b ++ '.' :: d.data ∨
      ∃ p, isDigitSeq p = true ∧
        host.data = b ++ '.' :: (d.data ++ ':' :: p)) := by
  unfold hostMatch at h
  cases hs : suffixCapture d.data host.data with
  | some b2 =>
    simp only [hs] at h
    injection h with h
    subst h
    obtain ⟨hb, he⟩ := suffixCapture_some _ _ _ hs
    exact ⟨hb, Or.inl he⟩
  | none =>
    simp only [hs] at h
    obtain ⟨hb, hp⟩ := portCapture_some _ _ _ h
    exact ⟨hb, Or.inr hp⟩

theorem hostMatch_complete (d host : String)
    (h : (∃ b, b ≠ [] ∧ host.data = b ++ '.' :: d.data) ∨
      (∃ b p, b ≠ [] ∧ isDigitSeq p = true ∧
        host.data = b ++ '.' :: (d.data ++ ':' :: p))) :
    hostMatch d host ≠ none := by
  unfold hostMatch
  rcases h with ⟨b, hb, he⟩ | ⟨b, p, hb, hp, he⟩
  · have hsc : suffixCapture d.data host.data = some b := by
      rw [he]
      exact suffixCapture_complete d.data b hb
    simp [hsc]
  · cases hs : suffixCapture d.data host.data with
    | some b2 => simp [hs]
    | none =>
      simp only [hs]
      have hc := portCapture_complete d.data b p hb hp
      rw [← he] at hc
      intro hnone
      rw [hnone] at hc
      cases hc

/-! ## Claims -/

/-- C1, counterexample to the claim as stated: the get-object-xattr route
is registered in the table with its raw handler, not wrapped in
`policyCheck`; a GET xattr request reaches the handler even when the
policy evaluator denies every action, so not every registered handler sits
behind the authorization gate. -/
theorem claim_C1_counterexample :
    getObjectXAttrRule ∈ routeTable ∧ getObjectXAttrRule.gated = false ∧
      serveRequest (fun _ => .denied)
        ⟨"GET", "k", [("xattr", ""), ("key", "a")], []⟩ =
        .handled "getObjectXAttr" :=
  ⟨by simp [routeTable], rfl, rfl⟩

/-- C1, amended: every route rule of the table except the four xattr
routes (get/list/put/delete object xattr) wraps its handler in the
authorization gate, and for every gated matched rule the handler runs
only when the evaluator granted all the rule's required actions. -/
theorem claim_C1_amended :
    (∀ r ∈ routeTable,
      (r.gated = false ↔
        r.handler ∈ ["getObjectXAttr", "listObjectXAttrs",
                     "putObjectXAttr", "deleteObjectXAttr"])) ∧
    (∀ (evalr : String → EvalResult) (req : Request) (r : RouteRule),
      findMatch req = some r → r.gated = true →
      serveRequest evalr req = .handled r.handler →
      ∀ a ∈ r.actions, evalr a = .authorized) := by
  constructor
  · decide
  · intro evalr req r hfm hg hs a ha
    unfold serveRequest routeRequest at hs
    simp only [hfm, hg, if_true] at hs
    unfold policyCheck at hs
    by_cases hall : r.actions.all (fun a => decide (evalr a = .authorized)) = true
    · rw [List.all_eq_true] at hall
      have := hall a ha
      exact of_decide_eq_true this
    · rw [if_neg (by simpa using hall)] at hs
      cases hs

/-- C1 witness: concrete applications of the amended claim — the
head-object rule is gated, and a plain GET served through the gate with a
fully granting evaluator reaches the get-object handler with every
required action granted. -/
theorem claim_C1_amended_witness :
    (headObjectRule.gated = false ↔
      headObjectRule.handler ∈ ["getObjectXAttr", "listObjectXAttrs",
                                "putObjectXAttr", "deleteObjectXAttr"]) ∧
    (∀ a ∈ getObjectRule.actions,
      (fun _ => EvalResult.authorized) a = EvalResult.authorized) :=
  ⟨claim_C1_amended.1 headObjectRule (by simp [routeTable]),
   claim_C1_amended.2 (fun _ => EvalResult.authorized) ⟨"GET", "k", [], []⟩
     getObjectRule (by decide) rfl rfl⟩

/-- C3: the delete-object-tagging route is registered with the malformed
path template `/{object:.+` (unbalanced brace), so gorilla/mux stores an
error in the route and the route never matches; a
`DELETE /bucket/key?tagging=` request is instead captured by the plain
delete-object rule. -/
theorem claim_C3_behavior :
    deleteObjectTaggingRule.broken = true ∧
    deleteObjectTaggingRule ∈ routeTable ∧
    findMatch ⟨"DELETE", "key", [("tagging", "")], []⟩ =
      some deleteObjectRule ∧
    deleteObjectRule ≠ deleteObjectTaggingRule :=
  ⟨rfl, by simp [routeTable], by decide, by decide⟩

/-- C9: the pre-signed v2 and v4 get-object rules require
`ListBucketAction`, the plain get-object rule requires `GetObjectAction`,
and the object-tagging rules require the bucket-policy actions
(`GetBucketPolicyAction` / `PutBucketPolicyAction`); all five rules are in
the table and the actions are pairwise-relevantly distinct. -/
theorem claim_C9 :
    getObjectPresignedV2Rule.actions = [ListBucketAction] ∧
    getObjectPresignedV4Rule.actions = [ListBucketAction] ∧
    getObjectRule.actions = [GetObjectAction] ∧
    getObjectTaggingRule.actions = [GetBucketPolicyAction] ∧
    putObjectTaggingRule.actions = [PutBucketPolicyAction] ∧
    getObjectPresignedV2Rule ∈ routeTable ∧
    getObjectPresignedV4Rule ∈ routeTable ∧
    getObjectRule ∈ routeTable ∧
    getObjectTaggingRule ∈ routeTable ∧
    putObjectTaggingRule ∈ routeTable ∧
    ListBucketAction ≠ GetObjectAction ∧
    GetBucketPolicyAction ≠ GetObjectAction ∧
    PutBucketPolicyAction ≠ PutObjectAction := by
  refine ⟨rfl, rfl, rfl, rfl, rfl, ?_, ?_, ?_, ?_, ?_, ?_, ?_, ?_⟩ <;>
    simp [routeTable] <;> decide

/-- C10: the get-object-acl rule captures the object path under the
misspelled variable `objject`; any request it matches has no `object`
variable in the match result, while every other object-level rule of the
table captures the path as `object`. -/
theorem claim_C10 :
    (∀ req : Request, findMatch req = some getObjectACLRule →
      lookupFirst "object" (matchVars req) = none ∧
      lookupFirst "objject" (matchVars req) = some req.objectKey) ∧
    getObjectACLRule.pathVar = "objject" ∧
    (∀ r ∈ routeTable, r ≠ getObjectACLRule → r.needsObject = true →
      r.pathVar = "object") := by
  refine ⟨?_, rfl, by decide⟩
  intro req h
  unfold matchVars
  rw [h]
  simp [RouteRule.capturedVars, getObjectACLRule, lookupFirst, List.find?]

/-- C2: when no route fully matches a request, the outcome is
MethodNotAllowed (some route of another method passes all its non-method
matchers — with this table a head rule always does), and RouteNotFound can
only arise when no rule of any method matches the request's path shape
(with this table, never). -/
theorem claim_C2 (req : Request) :
    (findMatch req = none → routeRequest req = .methodNotAllowed) ∧
    (routeRequest req = .routeNotFound →
      ∀ r ∈ routeTable,
        ¬(r.broken = false ∧ (r.needsObject = true → req.objectKey ≠ ""))) := by
  have key : findMatch req = none → routeRequest req = .methodNotAllowed := by
    intro h
    have hcand : (routeTable.any fun r =>
        decide (r.method ≠ req.method) && r.nonMethodOk req) = true := by
      rw [List.any_eq_true]
      by_cases hm : req.method = "HEAD"
      · exfalso
        by_cases hk : req.objectKey = ""
        · have hmem : (routeTable.find? (fun r => r.matchesReq req)).isSome := by
            rw [List.find?_isSome]
            refine ⟨headBucketRule, by simp [routeTable], ?_⟩
            simp [RouteRule.matchesReq, RouteRule.nonMethodOk, qsat,
              headBucketRule, hm]
          unfold findMatch at h
          rw [h] at hmem
          cases hmem
        · have hmem : (routeTable.find? (fun r => r.matchesReq req)).isSome := by
            rw [List.find?_isSome]
            refine ⟨headObjectRule, by simp [routeTable], ?_⟩
            simp [RouteRule.matchesReq, RouteRule.nonMethodOk, qsat,
              headObjectRule, hm, hk]
          unfold findMatch at h
          rw [h] at hmem
          cases hmem
      · by_cases hk : req.objectKey = ""
        · refine ⟨headBucketRule, by simp [routeTable], ?_⟩
          simp [RouteRule.nonMethodOk, qsat, headBucketRule]
          exact fun e => hm (Eq.symm e)
        · refine ⟨headObjectRule, by simp [routeTable], ?_⟩
          simp [RouteRule.nonMethodOk, qsat, headObjectRule, hk]
          exact fun e => hm (Eq.symm e)
    unfold routeRequest
    simp only [h]
    rw [if_pos hcand]
  refine ⟨key, ?_⟩
  intro h2 r _ _
  cases hfm : findMatch req with
  | none =>
    have hout := key hfm
    rw [hout] at h2
    cases h2
  | some r2 =>
    unfold routeRequest at h2
    simp only [hfm] at h2
    cases h2

/-- C2 witness: a PATCH to an object path matches the shapes of the
object rules of other methods only, and is answered MethodNotAllowed. -/
theorem claim_C2_witness :
    routeRequest ⟨"PATCH", "k", [], []⟩ = RouteOutcome.methodNotAllowed :=
  (claim_C2 ⟨"PATCH", "k", [], []⟩).1 (by decide)

/-- C4, counterexample to the claim as stated: a GET object request whose
query has the key `tagging` present but also carries a complete
pre-signed v2 parameter set is matched by the earlier-registered
pre-signed get-object rule, not by the get-object-tagging rule. -/
theorem claim_C4_counterexample :
    lookupFirst "tagging"
      [("tagging", ""), ("AWSAccessKeyId", "a"), ("Expires", "1"),
       ("Signature", "s")] = some "" ∧
    findMatch ⟨"GET", "k",
        [("tagging", ""), ("AWSAccessKeyId", "a"), ("Expires", "1"),
         ("Signature", "s")], []⟩ = some getObjectPresignedV2Rule ∧
    getObjectPresignedV2Rule ≠ getObjectTaggingRule :=
  ⟨rfl, by decide, by decide⟩

/-- C4, amended: a GET to an object-level path with the query key
`tagging` present (any value — `Queries("tagging", "")` matches any value
when the key is set) never selects the plain get-object rule, and selects
the get-object-tagging rule unless the query also satisfies a complete
pre-signed v2 or v4 parameter set, which are registered earlier and take
priority. -/
theorem claim_C4_amended (k tv : String) (q hs : List (String × String))
    (hk : k ≠ "") (htag : lookupFirst "tagging" q = some tv) :
    (qsat getObjectPresignedV2Rule q = false →
      qsat getObjectPresignedV4Rule q = false →
      findMatch ⟨"GET", k, q, hs⟩ = some getObjectTaggingRule) ∧
    findMatch ⟨"GET", k, q, hs⟩ ≠ some getObjectRule := by
  have hfirst : ∀ (hv2 : qsat getObjectPresignedV2Rule q = false)
      (hv4 : qsat getObjectPresignedV4Rule q = false),
      findMatch ⟨"GET", k, q, hs⟩ = some getObjectTaggingRule := by
    intro hv2 hv4
    unfold findMatch
    rw [routeTable]
    rw [find?_skip _ (by simp [RouteRule.matchesReq, headObjectRule])]
    rw [find?_skip _ (by simp [RouteRule.matchesReq, headBucketRule])]
    rw [find?_skip _ (by simp [RouteRule.matchesReq, RouteRule.nonMethodOk, hv2])]
    rw [find?_skip _ (by simp [RouteRule.matchesReq, RouteRule.nonMethodOk, hv4])]
    rw [find?_hit _ (by
      simp [RouteRule.matchesReq, RouteRule.nonMethodOk, qsat,
        getObjectTaggingRule, QueryPred.sat, QueryPat.sat, htag, hk])]
  refine ⟨hfirst, ?_⟩
  cases hv2 : qsat getObjectPresignedV2Rule q with
  | true =>
    have hfm : findMatch ⟨"GET", k, q, hs⟩ = some getObjectPresignedV2Rule := by
      unfold findMatch
      rw [routeTable]
      rw [find?_skip _ (by simp [RouteRule.matchesReq, headObjectRule])]
      rw [find?_skip _ (by simp [RouteRule.matchesReq, headBucketRule])]
      rw [find?_hit _ (by
        have hb : getObjectPresignedV2Rule.broken = false := rfl
        have hn : getObjectPresignedV2Rule.needsObject = true := rfl
        have hch : getObjectPresignedV2Rule.copyHeader = false := rfl
        have hm : getObjectPresignedV2Rule.method = "GET" := rfl
        simp [RouteRule.matchesReq, RouteRule.nonMethodOk, hb, hn, hch, hm,
          hv2, hk])]
    rw [hfm]
    intro hc
    injection hc with hc
    exact absurd hc (by decide)
  | false =>
    cases hv4 : qsat getObjectPresignedV4Rule q with
    | true =>
      have hfm : findMatch ⟨"GET", k, q, hs⟩ =
          some getObjectPresignedV4Rule := by
        unfold findMatch
        rw [routeTable]
        rw [find?_skip _ (by simp [RouteRule.matchesReq, headObjectRule])]
        rw [find?_skip _ (by simp [RouteRule.matchesReq, headBucketRule])]
        rw [find?_skip _ (by
          simp [RouteRule.matchesReq, RouteRule.nonMethodOk, hv2])]
        rw [find?_hit _ (by
          have hb : getObjectPresignedV4Rule.broken = false := rfl
          have hn : getObjectPresignedV4Rule.needsObject = true := rfl
          have hch : getObjectPresignedV4Rule.copyHeader = false := rfl
          have hm : getObjectPresignedV4Rule.method = "GET" := rfl
          simp [RouteRule.matchesReq, RouteRule.nonMethodOk, hb, hn, hch, hm,
            hv4, hk])]
      rw [hfm]
      intro hc
      injection hc with hc
      exact absurd hc (by decide)
    | false =>
      rw [hfirst hv2 hv4]
      intro hc
      injection hc with hc
      exact absurd hc (by decide)

/-- C4 witness: `GET /{object}?tagging=x` selects the get-object-tagging
rule and not the plain get-object rule. -/
theorem claim_C4_amended_witness :
    findMatch ⟨"GET", "k", [("tagging", "x")], []⟩ =
      some getObjectTaggingRule ∧
    findMatch ⟨"GET", "k", [("tagging", "x")], []⟩ ≠ some getObjectRule :=
  ⟨(claim_C4_amended "k" "x" [("tagging", "x")] [] (by decide)
      (by decide)).1 (by decide) (by decide),
   (claim_C4_amended "k" "x" [("tagging", "x")] [] (by decide)
      (by decide)).2⟩

/-- C5: a GET to an object-level path whose query satisfies none of the
predicated object-GET rules (no complete pre-signed v2/v4 set, no
tagging, no xattr, no acl) is matched by the plain get-object rule, even
when extraneous query keys are present. -/
theorem claim_C5 (k : String) (q hs : List (String × String))
    (hk : k ≠ "")
    (hv2 : qsat getObjectPresignedV2Rule q = false)
    (hv4 : qsat getObjectPresignedV4Rule q = false)
    (htag : qsat getObjectTaggingRule q = false)
    (hxg : qsat getObjectXAttrRule q = false)
    (hxl : qsat listObjectXAttrsRule q = false)
    (hacl : qsat getObjectACLRule q = false) :
    findMatch ⟨"GET", k, q, hs⟩ = some getObjectRule := by
  unfold findMatch
  rw [routeTable]
  rw [find?_skip _ (by simp [RouteRule.matchesReq, headObjectRule])]
  rw [find?_skip _ (by simp [RouteRule.matchesReq, headBucketRule])]
  rw [find?_skip _ (by simp [RouteRule.matchesReq, RouteRule.nonMethodOk, hv2])]
  rw [find?_skip _ (by simp [RouteRule.matchesReq, RouteRule.nonMethodOk, hv4])]
  rw [find?_skip _ (by simp [RouteRule.matchesReq, RouteRule.nonMethodOk, htag])]
  rw [find?_skip _ (by simp [RouteRule.matchesReq, RouteRule.nonMethodOk, hxg])]
  rw [find?_skip _ (by simp [RouteRule.matchesReq, RouteRule.nonMethodOk, hxl])]
  rw [find?_skip _ (by simp [RouteRule.matchesReq, RouteRule.nonMethodOk, hacl])]
  rw [find?_hit _ (by
    simp [RouteRule.matchesReq, RouteRule.nonMethodOk, qsat,
      getObjectRule, hk])]

/-- C5 witness: a GET object request carrying only extraneous query keys
selects the plain get-object rule. -/
theorem claim_C5_witness :
    findMatch ⟨"GET", "k", [("foo", "bar"), ("uploads", "zz")], []⟩ =
      some getObjectRule :=
  claim_C5 "k" [("foo", "bar"), ("uploads", "zz")] [] (by decide) (by decide)
    (by decide) (by decide) (by decide) (by decide) (by decide)

/-- C8: for a matched gated rule, the handler is dispatched when the
evaluator grants every required action, and any non-grant (denial or
evaluator-internal error) on any required action terminates with
AccessDenied and never reaches a handler. -/
theorem claim_C8 (evalr : String → EvalResult) (req : Request)
    (r : RouteRule) (hfm : findMatch req = some r) (hg : r.gated = true) :
    ((∀ a ∈ r.actions, evalr a = .authorized) →
      serveRequest evalr req = .handled r.handler) ∧
    ((∃ a ∈ r.actions, evalr a = .denied ∨ evalr a = .evalError) →
      serveRequest evalr req = .accessDenied ∧
      ∀ h2, serveRequest evalr req ≠ .handled h2) := by
  have hserve : serveRequest evalr req = policyCheck evalr r.actions r.handler := by
    unfold serveRequest routeRequest
    simp only [hfm, hg, if_true]
  constructor
  · intro hall
    have hcond : r.actions.all (fun a => decide (evalr a = .authorized)) = true := by
      rw [List.all_eq_true]
      exact fun a ha => decide_eq_true (hall a ha)
    rw [hserve]
    unfold policyCheck
    rw [if_pos hcond]
  · rintro ⟨a, ha, hbad⟩
    have hne : evalr a ≠ .authorized := by
      rcases hbad with hbad | hbad <;> rw [hbad] <;> intro hc <;> cases hc
    have hcond : r.actions.all (fun a => decide (evalr a = .authorized)) = false := by
      cases hcase : r.actions.all (fun a => decide (evalr a = .authorized)) with
      | false => rfl
      | true =>
        rw [List.all_eq_true] at hcase
        exact absurd (of_decide_eq_true (hcase a ha)) hne
    have hserve2 : serveRequest evalr req = .accessDenied := by
      rw [hserve]
      unfold policyCheck
      rw [if_neg (by simp [hcond])]
    exact ⟨hserve2, fun h2 hc => by rw [hserve2] at hc; cases hc⟩

/-- C8 witness: a PUT object request under an evaluator that errors on
every action is answered AccessDenied. -/
theorem claim_C8_witness :
    serveRequest (fun _ => EvalResult.evalError) ⟨"PUT", "k", [], []⟩ =
      ServeOutcome.accessDenied :=
  ((claim_C8 (fun _ => EvalResult.evalError) ⟨"PUT", "k", [], []⟩
      putObjectRule (by decide) rfl).2
    ⟨PutObjectAction, by decide, Or.inr rfl⟩).1

/-- C10 witness: a concrete `GET /{object}?acl=` request is matched by the
get-object-acl rule and its match result binds `objject` but not
`object`. -/
theorem claim_C10_witness :
    lookupFirst "object" (matchVars ⟨"GET", "k", [("acl", "")], []⟩) = none ∧
    lookupFirst "objject" (matchVars ⟨"GET", "k", [("acl", "")], []⟩) =
      some "k" :=
  claim_C10.1 ⟨"GET", "k", [("acl", "")], []⟩ (by decide)

/-- C7: the domain resolver tests each configured domain in configured
order against the host; a captured match means the host decomposes as
`{bucket}.{domain}` or `{bucket}.{domain}:{digits}` with a non-empty
bucket (and conversely any such decomposition is found); the first
matching domain yields virtual-hosted addressing with the captured prefix
as bucket name, and when no domain matches the request resolves
path-style on the first path segment. -/
theorem claim_C7 :
    (∀ (d host : String) (b : List Char), hostMatch d host = some b →
      b ≠ [] ∧ (host.data = b ++ '.' :: d.data ∨
        ∃ p, isDigitSeq p = true ∧
          host.data = b ++ '.' :: (d.data ++ ':' :: p))) ∧
    (∀ d host : String,
      ((∃ b, b ≠ [] ∧ host.data = b ++ '.' :: d.data) ∨
       (∃ b p, b ≠ [] ∧ isDigitSeq p = true ∧
         host.data = b ++ '.' :: (d.data ++ ':' :: p))) →
      hostMatch d host ≠ none) ∧
    (∀ (domains : List String) (host path : String),
      (∀ d ∈ domains, hostMatch d host = none) →
      resolveAddress domains host path =
        ⟨firstSegment path.data, .pathStyle⟩) ∧
    (∀ (domains : List String) (host path : String) (b : List Char),
      resolveAddress domains host path = ⟨b, .virtualHosted⟩ →
      ∃ pre d post, domains = pre ++ d :: post ∧
        (∀ d2 ∈ pre, hostMatch d2 host = none) ∧
        hostMatch d host = some b) := by
  refine ⟨hostMatch_sound, hostMatch_complete, ?_, ?_⟩
  · intro domains host path
    induction domains with
    | nil => intro _; rfl
    | cons d rest ih =>
      intro h
      unfold resolveAddress
      rw [h d (List.mem_cons_self d rest)]
      exact ih (fun d2 hd2 => h d2 (List.mem_cons_of_mem d hd2))
  · intro domains host path
    induction domains with
    | nil =>
      intro b hb
      simp [resolveAddress] at hb
    | cons d rest ih =>
      intro b hb
      unfold resolveAddress at hb
      cases hm : hostMatch d host with
      | some b2 =>
        simp only [hm] at hb
        have hb2 : b2 = b := congrArg BucketAddress.bucketName hb
        subst hb2
        exact ⟨[], d, rest, rfl,
          fun d2 hd2 => absurd hd2 (List.not_mem_nil d2), hm⟩
      | none =>
        simp only [hm] at hb
        obtain ⟨pre, d2, post, hdom, hpre, hmatch⟩ := ih b hb
        refine ⟨d :: pre, d2, post, by rw [hdom]; rfl, ?_, hmatch⟩
        intro d3 hd3
        rcases List.mem_cons.mp hd3 with rfl | hd3
        · exact hm
        · exact hpre d3 hd3

/-- C7 witness: concrete applications — a virtual-hosted host decomposes
around the configured domain; a port-suffixed host is matched; an
unmatched host resolves path-style on the first path segment; and a
resolved virtual-hosted address comes from the first matching domain. -/
theorem claim_C7_witness :
    ("bkt".data ≠ ([] : List Char) ∧
      ("bkt.s3.test.com".data = "bkt".data ++ '.' :: "s3.test.com".data ∨
        ∃ p, isDigitSeq p = true ∧
          "bkt.s3.test.com".data =
            "bkt".data ++ '.' :: ("s3.test.com".data ++ ':' :: p))) ∧
    hostMatch "s3.test.com" "bkt.s3.test.com:9000" ≠ none ∧
    resolveAddress ["s3.test.com"] "other.net" "/b/k" =
      ⟨"b".data, .pathStyle⟩ ∧
    (∃ pre d post,
      (["x.com", "s3.test.com"] : List String) = pre ++ d :: post ∧
      (∀ d2 ∈ pre, hostMatch d2 "a.s3.test.com" = none) ∧
      hostMatch d "a.s3.test.com" = some "a".data) :=
  ⟨claim_C7.1 "s3.test.com" "bkt.s3.test.com" "bkt".data (by decide),
   claim_C7.2.1 "s3.test.com" "bkt.s3.test.com:9000"
     (Or.inr ⟨"bkt".data, "9000".data, by decide, by decide, by decide⟩),
   claim_C7.2.2.1 ["s3.test.com"] "other.net" "/b/k" (by decide),
   claim_C7.2.2.2 ["x.com", "s3.test.com"] "a.s3.test.com" "/k" "a".data
     (by decide)⟩

end ObjectNode
